import Mathlib

/-!
Verification development for the PST extraction & normalization engine
(`extract.py`): a shallow embedding of its data model and operations,
together with theorems settling the specification claims.

Modelling conventions:
* A store attribute (pypff accessor) is `Attr α`: `absent` (attribute missing,
  `getattr` returns the default), `val a` (present), or `err` (the accessor
  raises; `getattr` with a default propagates the exception).
* Python `datetime` values are modelled by their canonical formatted string,
  so `_format_datetime` acts as the identity on present values.
* Byte-valued text attributes are modelled by their lossily decoded text
  (normalization decodes them immediately on read; no claim distinguishes
  the raw bytes from the decoded text).
* Filesystem paths are modelled as lists of path components; the OS refusing
  `open(path, 'wb')` on a path that resolves to an existing directory is
  modelled explicitly in `saveAttachment`.
-/

namespace PST

/-- One optionally-present store attribute: missing, present, or raising. -/
inductive Attr (α : Type) where
  | absent : Attr α
  | val : α → Attr α
  | err : Attr α
deriving DecidableEq

/-- Python `getattr(obj, name, default)`: the default is used when the
attribute is missing, but an exception raised by the accessor propagates. -/
def getattrD {α : Type} (a : Attr α) (d : α) : Except Unit α :=
  match a with
  | .absent => .ok d
  | .val v => .ok v
  | .err => .error ()

/-- Sequencing of fallible attribute reads (Python statements that may raise). -/
def andThen {α β : Type} (x : Except Unit α) (f : α → Except Unit β) : Except Unit β :=
  match x with
  | .ok v => f v
  | .error e => .error e

/-- Whether a fallible computation succeeded. -/
def exceptOk {α : Type} : Except Unit α → Bool
  | .ok _ => true
  | .error _ => false

/-! ## MD5 (`hashlib.md5`), executable, over byte lists -/

/-- UTF-8 encoding of a string (`str.encode()`), as a list of byte values. -/
def utf8Bytes (s : String) : List Nat :=
  s.data.flatMap fun c =>
    let n := c.toNat
    if n < 128 then [n]
    else if n < 2048 then [192 + n / 64, 128 + n % 64]
    else if n < 65536 then [224 + n / 4096, 128 + (n / 64) % 64, 128 + n % 64]
    else [240 + n / 262144, 128 + (n / 4096) % 64, 128 + (n / 64) % 64, 128 + n % 64]

/-- The constant 2^32, the word modulus of MD5. -/
def M32 : Nat := 4294967296

/-- Left-rotation of a 32-bit word. -/
def rotl32 (x n : Nat) : Nat := ((x <<< n) % M32) ||| (x >>> (32 - n))

/-- The 64 MD5 sine-derived constants (RFC 1321). -/
def md5K : List Nat :=
  [0xd76aa478, 0xe8c7b756, 0x242070db, 0xc1bdceee,
   0xf57c0faf, 0x4787c62a, 0xa8304613, 0xfd469501,
   0x698098d8, 0x8b44f7af, 0xffff5bb1, 0x895cd7be,
   0x6b901122, 0xfd987193, 0xa679438e, 0x49b40821,
   0xf61e2562, 0xc040b340, 0x265e5a51, 0xe9b6c7aa,
   0xd62f105d, 0x02441453, 0xd8a1e681, 0xe7d3fbc8,
   0x21e1cde6, 0xc33707d6, 0xf4d50d87, 0x455a14ed,
   0xa9e3e905, 0xfcefa3f8, 0x676f02d9, 0x8d2a4c8a,
   0xfffa3942, 0x8771f681, 0x6d9d6122, 0xfde5380c,
   0xa4beea44, 0x4bdecfa9, 0xf6bb4b60, 0xbebfbc70,
   0x289b7ec6, 0xeaa127fa, 0xd4ef3085, 0x04881d05,
   0xd9d4d039, 0xe6db99e5, 0x1fa27cf8, 0xc4ac5665,
   0xf4292244, 0x432aff97, 0xab9423a7, 0xfc93a039,
   0x655b59c3, 0x8f0ccc92, 0xffeff47d, 0x85845dd1,
   0x6fa87e4f, 0xfe2ce6e0, 0xa3014314, 0x4e0811a1,
   0xf7537e82, 0xbd3af235, 0x2ad7d2bb, 0xeb86d391]

/-- The 64 MD5 per-round shift amounts. -/
def md5S : List Nat :=
  [7, 12, 17, 22, 7, 12, 17, 22, 7, 12, 17, 22, 7, 12, 17, 22,
   5, 9, 14, 20, 5, 9, 14, 20, 5, 9, 14, 20, 5, 9, 14, 20,
   4, 11, 16, 23, 4, 11, 16, 23, 4, 11, 16, 23, 4, 11, 16, 23,
   6, 10, 15, 21, 6, 10, 15, 21, 6, 10, 15, 21, 6, 10, 15, 21]

def md5F (b c d : Nat) : Nat := (b &&& c) ||| ((0xffffffff ^^^ b) &&& d)
def md5G (b c d : Nat) : Nat := (d &&& b) ||| ((0xffffffff ^^^ d) &&& c)
def md5H (b c d : Nat) : Nat := b ^^^ c ^^^ d
def md5I (b c d : Nat) : Nat := c ^^^ (b ||| (0xffffffff ^^^ d))

/-- Little-endian 32-bit word number `g` of a 64-byte chunk. -/
def leWord (bs : List Nat) (g : Nat) : Nat :=
  bs.getD (4 * g) 0 + 256 * bs.getD (4 * g + 1) 0 +
    65536 * bs.getD (4 * g + 2) 0 + 16777216 * bs.getD (4 * g + 3) 0

/-- One of the 64 MD5 round steps on the running state `(a, b, c, d)`. -/
def md5Step (chunk : List Nat) (st : Nat × Nat × Nat × Nat) (i : Nat) :
    Nat × Nat × Nat × Nat :=
  let a := st.1
  let b := st.2.1
  let c := st.2.2.1
  let d := st.2.2.2
  let fg : Nat × Nat :=
    if i < 16 then (md5F b c d, i)
    else if i < 32 then (md5G b c d, (5 * i + 1) % 16)
    else if i < 48 then (md5H b c d, (3 * i + 5) % 16)
    else (md5I b c d, (7 * i) % 16)
  let f2 := (fg.1 + a + md5K.getD i 0 + leWord chunk fg.2) % M32
  (d, (b + rotl32 f2 (md5S.getD i 0)) % M32, b, c)

/-- Process one 64-byte chunk: 64 round steps, then add into the state. -/
def md5Block (st : Nat × Nat × Nat × Nat) (chunk : List Nat) :
    Nat × Nat × Nat × Nat :=
  let r := (List.range 64).foldl (md5Step chunk) st
  ((st.1 + r.1) % M32, (st.2.1 + r.2.1) % M32,
   (st.2.2.1 + r.2.2.1) % M32, (st.2.2.2 + r.2.2.2) % M32)

/-- MD5 padding: a 1-bit, zeros to 56 mod 64 bytes, then the 64-bit
little-endian bit length. -/
def md5Pad (msg : List Nat) : List Nat :=
  let len := msg.length
  let zeros := (120 - ((len + 1) % 64)) % 64
  let bitLen := (8 * len) % (2 ^ 64)
  msg ++ [128] ++ List.replicate zeros 0 ++
    (List.range 8).map fun i => (bitLen >>> (8 * i)) % 256

/-- Split a byte list into 64-byte chunks (structural recursion on a fuel
bound so the kernel can evaluate digests; each step consumes at least one
element, so `l.length` steps always suffice). -/
def chunks64Go : Nat → List Nat → List (List Nat)
  | 0, _ => []
  | _, [] => []
  | fuel + 1, l => l.take 64 :: chunks64Go fuel (l.drop 64)

/-- Split a byte list into 64-byte chunks. -/
def chunks64 (l : List Nat) : List (List Nat) := chunks64Go l.length l

/-- A 32-bit word as four little-endian bytes. -/
def wordLE (w : Nat) : List Nat :=
  [w % 256, (w >>> 8) % 256, (w >>> 16) % 256, (w >>> 24) % 256]

/-- The 16-byte MD5 digest of a byte list. -/
def md5Digest (msg : List Nat) : List Nat :=
  let st := (chunks64 (md5Pad msg)).foldl md5Block
    (0x67452301, 0xefcdab89, 0x98badcfe, 0x10325476)
  wordLE st.1 ++ wordLE st.2.1 ++ wordLE st.2.2.1 ++ wordLE st.2.2.2

/-- A hex digit character. -/
def hexDigit (n : Nat) : Char :=
  [Char.ofNat 48, Char.ofNat 49, Char.ofNat 50, Char.ofNat 51, Char.ofNat 52,
   Char.ofNat 53, Char.ofNat 54, Char.ofNat 55, Char.ofNat 56, Char.ofNat 57,
   Char.ofNat 97, Char.ofNat 98, Char.ofNat 99, Char.ofNat 100, Char.ofNat 101,
   Char.ofNat 102].getD n (Char.ofNat 48)

/-- A byte as two lowercase hex characters. -/
def byteHex (b : Nat) : List Char := [hexDigit (b / 16), hexDigit (b % 16)]

/-- The character sequence of `hexdigest()`. -/
def md5HexChars (msg : List Nat) : List Char := (md5Digest msg).flatMap byteHex

/-- Python `hashlib.md5(s.encode()).hexdigest()[:16]`: the 32-character hex digest
truncated to its first 16 characters (64 bits). -/
def md5Hex16 (s : String) : String :=
  String.mk ((md5HexChars (utf8Bytes s)).take 16)

/-! ## Store data model (the pypff object graph) -/

/-- A recipient entry of a message (`message.recipients` element). -/
structure Recipient where
  name : Attr String
  email_address : Attr String
  rtype : Attr String
deriving DecidableEq

/-- A raw attachment of a message (`message.attachments` element).
`data` is `none` when the payload attribute is `None`. -/
structure RawAttachment where
  name : Attr String
  size : Attr Nat
  attachment_type : Attr String
  data : Attr (Option (List Nat))
deriving DecidableEq

/-- A raw store message with its optionally-present attributes. -/
structure Message where
  subject : Attr String
  sender_name : Attr String
  sender_email_address : Attr String
  plain_text_body : Attr String
  html_body : Attr String
  delivery_time : Attr String
  creation_time : Attr String
  modification_time : Attr String
  size : Attr Nat
  message_class : Attr String
  priority : Attr String
  importance : Attr String
  categories : Attr String
  is_read : Attr Bool
  recipients : Attr (List Recipient)
  attachments : Attr (List RawAttachment)
deriving DecidableEq

mutual
/-- A store folder: name, sub-folders, directly contained messages. -/
inductive Folder where
  | node : String → FolderList → List Message → Folder

/-- The sub-folder sequence of a folder. -/
inductive FolderList where
  | nil : FolderList
  | cons : Folder → FolderList → FolderList
end

def Folder.name : Folder → String
  | .node n _ _ => n

def Folder.subFolders : Folder → FolderList
  | .node _ s _ => s

def Folder.subMessages : Folder → List Message
  | .node _ _ m => m

mutual
/-- Every message contained anywhere in a folder's subtree, sub-folders first
(the order the traversal meets them). -/
def Folder.allMessages : Folder → List Message
  | .node _ subs msgs => FolderList.allMessages subs ++ msgs

def FolderList.allMessages : FolderList → List Message
  | .nil => []
  | .cons f rest => f.allMessages ++ FolderList.allMessages rest
end

/-! ## Normalized records (the in-memory corpus) -/

/-- A normalized recipient (`_extract_recipients` element). -/
structure RecipientData where
  name : String
  email : String
  rtype : String
deriving DecidableEq

/-- A normalized attachment record (`_extract_attachments` element).
`saved_path` is the written file path as a component list. -/
structure AttachmentData where
  email_id : String
  index : Nat
  name : String
  size : Nat
  atype : String
  saved_path : Option (List String)
deriving DecidableEq

/-- A normalized email record (`_extract_single_email` result). -/
structure EmailData where
  id : String
  folder : String
  subject : String
  sender_name : String
  sender_email : String
  recipients : List RecipientData
  delivery_time : String
  creation_time : String
  modification_time : String
  size : Nat
  body_plain : String
  body_html : String
  message_class : String
  priority : String
  importance : String
  attachments : List AttachmentData
  categories : String
  read_flag : Bool
deriving DecidableEq

/-- A normalized contact record (`extract_contacts` element). -/
structure ContactData where
  display_name : String
  email_address : String
  business_phone : String
  home_phone : String
  mobile_phone : String
  company : String
  job_title : String
  creation_time : String
  modification_time : String
deriving DecidableEq

/-- A normalized calendar record (`extract_calendar` element). -/
structure CalendarData where
  subject : String
  location : String
  start_time : String
  end_time : String
  organizer : String
  attendees : List String
  body : String
  importance : String
  creation_time : String
deriving DecidableEq

/-- A normalized task record (`extract_tasks` element). -/
structure TaskData where
  subject : String
  body : String
  status : String
  priority : String
  due_date : String
  start_date : String
  completion_date : String
  percent_complete : Nat
  creation_time : String
deriving DecidableEq

/-- A normalized note record (`extract_notes` element). -/
structure NoteData where
  subject : String
  body : String
  creation_time : String
  modification_time : String
  color : String
  size : Nat
deriving DecidableEq

/-- A normalized journal record (`extract_journal` element). -/
structure JournalData where
  subject : String
  body : String
  entry_type : String
  start_time : String
  duration : Nat
  companies : String
  contacts : String
  creation_time : String
deriving DecidableEq

/-! ## Identity generation (`_generate_email_id`) -/

/-- The content string hashed by `_generate_email_id`: the f-string
concatenation of the subject, sender address and creation time reads
(left to right, each raising if its accessor raises). -/
def emailIdContent (m : Message) : Except Unit String :=
  andThen (getattrD m.subject "") fun s =>
    andThen (getattrD m.sender_email_address "") fun e =>
      andThen (getattrD m.creation_time "") fun c =>
        .ok (s ++ e ++ c)

/-- The function `_generate_email_id`: the truncated MD5 of the three content fields; the
bare-except fallback id (derived from the current timestamp `now`) is used
only when one of the three accessors raises. -/
def generateEmailId (now : String) (m : Message) : String :=
  match emailIdContent m with
  | .ok content => md5Hex16 content
  | .error _ => "email_" ++ now

/-! ## Helpers shared by the normalizers -/

/-- The function `_format_datetime` on a present value: datetimes are modelled by their
canonical `YYYY-MM-DD HH:MM:SS` string, so formatting is the identity. -/
def formatDatetime (s : String) : String := s

/-- Python `body[:1000] if body else ''`: empty stays empty, otherwise the first
1000 characters. -/
def truncate1000 (s : String) : String :=
  if s = "" then "" else String.mk (s.data.take 1000)

/-! ## Attachment persistence (`_save_attachment`) -/

/-- Python `str.isalnum` (ASCII scope, which covers every character the
claims exercise). -/
def pyIsAlnum (c : Char) : Bool := c.isAlpha || c.isDigit

/-- The characters kept by the sanitizer: alphanumerics, space, hyphen,
underscore, dot. -/
def allowedFilenameChar (c : Char) : Bool :=
  pyIsAlnum c || c = ' ' || c = '-' || c = '_' || c = '.'

/-- Python `str.rstrip`'s whitespace set. -/
def pyIsSpace (c : Char) : Bool :=
  c = ' ' || c = '\t' || c = '\n' || c = '\r' || c = '\x0b' || c = '\x0c'

/-- Python `str.rstrip()` on a character list. -/
def pyRstrip (l : List Char) : List Char :=
  (l.reverse.dropWhile pyIsSpace).reverse

/-- Python `"".join(c for c in filename if c.isalnum() or c in (' ', '-', '_', '.')).rstrip()` -/
def sanitizeFilename (s : String) : String :=
  String.mk (pyRstrip (s.data.filter allowedFilenameChar))

/-- The safe file name: the sanitized name, or `attachment_<index>` when
sanitization leaves nothing. -/
def safeFilename (filename : String) (index : Nat) : String :=
  let s := sanitizeFilename filename
  if s = "" then "attachment_" ++ toString index else s

/-- One step of path resolution: `.` stays, `..` pops, a plain component is
appended. -/
def resolveStep (stack : List String) (c : String) : List String :=
  if c = "." then stack
  else if c = ".." then stack.dropLast
  else stack ++ [c]

/-- Resolution of a component path against the filesystem root. -/
def resolvePath (p : List String) : List String := p.foldl resolveStep []

/-- The directories guaranteed to exist when an attachment is written: the
working directory, the output root, the `attachments` directory, and every
per-owner directory below it (all created by `mkdir(parents=True)`). -/
def isExistingDir (outputRoot : String) (p : List String) : Bool :=
  p = [] || p = [outputRoot] || p = [outputRoot, "attachments"] ||
    (p.length = 3 && p.take 2 = [outputRoot, "attachments"])

/-- The function `_save_attachment`: build the per-owner directory, sanitize the declared
name, and write the payload. Returns the written path, or `none` when the
name accessor raises, the payload is missing/empty, or the OS rejects the
write because the target path resolves to an existing directory (the fate of
sanitized names such as `.` and `..`). -/
def saveAttachment (outputRoot : String) (a : RawAttachment) (emailId : String)
    (index : Nat) : Option (List String) :=
  match getattrD a.name ("attachment_" ++ toString index) with
  | .error _ => none
  | .ok filename =>
    let safe := safeFilename filename index
    let filePath := [outputRoot, "attachments", emailId, safe]
    match a.data with
    | .err => none
    | .absent => none
    | .val none => none
    | .val (some d) =>
      if d.isEmpty then none
      else if isExistingDir outputRoot (resolvePath filePath) then none
      else some filePath

/-! ## Attachment extraction (`_extract_attachments`) -/

/-- The enumerated attachment loop. An accessor raising on one attachment's
metadata aborts the loop (the exception is caught at the surrounding
`try`), keeping the records accumulated so far. -/
def extractAttachmentsList (outputRoot emailId : String) :
    List RawAttachment → Nat → List AttachmentData
  | [], _ => []
  | a :: rest, i =>
    match getattrD a.name ("attachment_" ++ toString i),
        getattrD a.size 0, getattrD a.attachment_type "" with
    | .ok nm, .ok sz, .ok ty =>
      { email_id := emailId, index := i, name := nm, size := sz, atype := ty,
        saved_path := saveAttachment outputRoot a emailId i }
        :: extractAttachmentsList outputRoot emailId rest (i + 1)
    | _, _, _ => []

/-- The function `_extract_attachments`: empty when the attribute is missing or its
access raises; otherwise the enumerated loop from index 0. Every record
built here is also appended to the corpus-wide attachment list. -/
def extractAttachments (outputRoot : String) (m : Message) (emailId : String) :
    List AttachmentData :=
  match m.attachments with
  | .val l => extractAttachmentsList outputRoot emailId l 0
  | .absent => []
  | .err => []

/-! ## Recipient extraction (`_extract_recipients`) -/

/-- The recipient loop; an accessor raising aborts it, keeping the prefix. -/
def extractRecipientsList : List Recipient → List RecipientData
  | [] => []
  | r :: rest =>
    match getattrD r.name "", getattrD r.email_address "", getattrD r.rtype "" with
    | .ok n, .ok e, .ok t => ⟨n, e, t⟩ :: extractRecipientsList rest
    | _, _, _ => []

/-- The function `_extract_recipients`: empty when the attribute is missing or raises. -/
def extractRecipients (m : Message) : List RecipientData :=
  match m.recipients with
  | .val l => extractRecipientsList l
  | .absent => []
  | .err => []

/-! ## Single email normalization (`_extract_single_email`) -/

/-- The field values read before the attachment step, in source order. -/
structure PreFields where
  subject : String
  sender_name : String
  sender_email : String
  body_plain : String
  body_html : String
  recipients : List RecipientData
  delivery_time : String
  creation_time : String
  modification_time : String
  size : Nat
  message_class : String
  priority : String
  importance : String
deriving DecidableEq

/-- All attribute reads of `_extract_single_email` that occur before
`_extract_attachments` runs, in source order: any of them raising skips the
message before the corpus-wide attachment list is touched. -/
def readPreFields (m : Message) : Except Unit PreFields :=
  andThen (getattrD m.subject "") fun subject =>
  andThen (getattrD m.sender_name "") fun senderName =>
  andThen (getattrD m.sender_email_address "") fun senderEmail =>
  andThen (getattrD m.plain_text_body "") fun bodyPlain =>
  andThen (getattrD m.html_body "") fun bodyHtml =>
  andThen (getattrD m.delivery_time "") fun delivery =>
  andThen (getattrD m.creation_time "") fun creation =>
  andThen (getattrD m.modification_time "") fun modification =>
  andThen (getattrD m.size 0) fun size =>
  andThen (getattrD m.message_class "") fun mclass =>
  andThen (getattrD m.priority "") fun priority =>
  andThen (getattrD m.importance "") fun importance =>
    .ok { subject := subject, sender_name := senderName,
          sender_email := senderEmail,
          body_plain := truncate1000 bodyPlain,
          body_html := truncate1000 bodyHtml,
          recipients := extractRecipients m,
          delivery_time := formatDatetime delivery,
          creation_time := formatDatetime creation,
          modification_time := formatDatetime modification,
          size := size, message_class := mclass,
          priority := priority, importance := importance }

/-- The two attribute reads of `_extract_single_email` that occur after
`_extract_attachments` has already appended to the corpus-wide attachment
list: `categories`, then `is_read`. -/
def readPostFields (m : Message) : Except Unit (String × Bool) :=
  andThen (getattrD m.categories "") fun categories =>
  andThen (getattrD m.is_read false) fun readFlag =>
    .ok (categories, readFlag)

/-- The function `_extract_single_email`. Returns the normalized email (or `none` when a
field read raises — the per-message `try` swallows it) together with the
attachment records appended to the corpus-wide list while this message was
processed: empty when the failure precedes the attachment step, but already
populated when a post-attachment read (`categories`, `is_read`) raises. -/
def extractSingleEmail (outputRoot now : String) (m : Message)
    (folderPath : String) : Option EmailData × List AttachmentData :=
  let emailId := generateEmailId now m
  match readPreFields m with
  | .error _ => (none, [])
  | .ok f =>
    let atts := extractAttachments outputRoot m emailId
    match readPostFields m with
    | .error _ => (none, atts)
    | .ok post =>
      (some { id := emailId, folder := folderPath, subject := f.subject,
              sender_name := f.sender_name, sender_email := f.sender_email,
              recipients := f.recipients, delivery_time := f.delivery_time,
              creation_time := f.creation_time,
              modification_time := f.modification_time, size := f.size,
              body_plain := f.body_plain, body_html := f.body_html,
              message_class := f.message_class, priority := f.priority,
              importance := f.importance, attachments := atts,
              categories := post.1, read_flag := post.2 }, atts)

/-! ## Folder traversal (`extract_emails`) -/

/-- Python `f"{parent_path}/{sub_folder.name}" if parent_path else sub_folder.name` -/
def childPath (parent nm : String) : String :=
  if parent = "" then nm else parent ++ "/" ++ nm

/-- The message loop of `extract_emails`: each message normalized in order,
failed messages skipped, every message's corpus-wide attachment appends kept. -/
def extractMsgs (outputRoot now : String) :
    List Message → String → List EmailData × List AttachmentData
  | [], _ => ([], [])
  | m :: rest, path =>
    let one := extractSingleEmail outputRoot now m path
    let r := extractMsgs outputRoot now rest path
    (match one.1 with
     | some e => e :: r.1
     | none => r.1,
     one.2 ++ r.2)

mutual
/-- The function `extract_emails` on one folder: the sub-folder loop runs first (in the
order the store presents the sub-folders), then the folder's own messages.
The second component is the corpus-wide attachment list contribution, in
append order. -/
def extractEmailsFolder (outputRoot now : String) :
    Folder → String → List EmailData × List AttachmentData
  | .node _ subs msgs, parentPath =>
    let rs := extractEmailsSubs outputRoot now subs parentPath
    let rm := extractMsgs outputRoot now msgs parentPath
    (rs.1 ++ rm.1, rs.2 ++ rm.2)

/-- The sub-folder loop of `extract_emails`. -/
def extractEmailsSubs (outputRoot now : String) :
    FolderList → String → List EmailData × List AttachmentData
  | .nil, _ => ([], [])
  | .cons f rest, parentPath =>
    let r := extractEmailsFolder outputRoot now f (childPath parentPath f.name)
    let r2 := extractEmailsSubs outputRoot now rest parentPath
    (r.1 ++ r2.1, r.2 ++ r2.2)
end

/-- The root call `extract_emails()` (root folder, empty parent path). -/
def extractEmailsRoot (outputRoot now : String) (root : Folder) :
    List EmailData × List AttachmentData :=
  extractEmailsFolder outputRoot now root ""

/-! ## Named-folder extraction (contacts, calendar, tasks, notes, journal) -/

mutual
/-- The function `_find_folder_by_name`: the current folder matches when its name is
non-empty and equal case-insensitively; otherwise its sub-folders are
searched depth-first. -/
def findFolderByName (target : String) : Folder → Option Folder
  | .node n subs msgs =>
    if n ≠ "" ∧ n.toLower = target.toLower then some (.node n subs msgs)
    else findFolderInList target subs

/-- The sub-folder search loop of `_find_folder_by_name`. -/
def findFolderInList (target : String) : FolderList → Option Folder
  | .nil => none
  | .cons f rest =>
    match findFolderByName target f with
    | some r => some r
    | none => findFolderInList target rest
end

/-- One contact message (`extract_contacts` loop body); a raising read
skips the message. -/
def extractContactMsg (m : Message) : Except Unit ContactData :=
  andThen (getattrD m.subject "") fun dn =>
  andThen (getattrD m.sender_email_address "") fun ea =>
  andThen (getattrD m.creation_time "") fun ct =>
  andThen (getattrD m.modification_time "") fun mt =>
    .ok { display_name := dn, email_address := ea, business_phone := "",
          home_phone := "", mobile_phone := "", company := "", job_title := "",
          creation_time := formatDatetime ct,
          modification_time := formatDatetime mt }

/-- The function `extract_contacts`. -/
def extractContacts (root : Folder) : List ContactData :=
  match findFolderByName "Contacts" root with
  | none => []
  | some f => f.subMessages.filterMap fun m => (extractContactMsg m).toOption

/-- One calendar message (`extract_calendar` loop body). -/
def extractCalendarMsg (m : Message) : Except Unit CalendarData :=
  andThen (getattrD m.subject "") fun subject =>
  andThen (getattrD m.creation_time "") fun ct =>
  andThen (getattrD m.sender_name "") fun organizer =>
  andThen (getattrD m.plain_text_body "") fun body =>
  andThen (getattrD m.importance "") fun imp =>
    .ok { subject := subject, location := "",
          start_time := formatDatetime ct, end_time := "",
          organizer := organizer, attendees := [], body := body,
          importance := imp, creation_time := formatDatetime ct }

/-- The function `extract_calendar`. -/
def extractCalendar (root : Folder) : List CalendarData :=
  match findFolderByName "Calendar" root with
  | none => []
  | some f => f.subMessages.filterMap fun m => (extractCalendarMsg m).toOption

/-- One task message (`extract_tasks` loop body). -/
def extractTaskMsg (m : Message) : Except Unit TaskData :=
  andThen (getattrD m.subject "") fun subject =>
  andThen (getattrD m.plain_text_body "") fun body =>
  andThen (getattrD m.priority "") fun priority =>
  andThen (getattrD m.creation_time "") fun ct =>
    .ok { subject := subject, body := body, status := "",
          priority := priority, due_date := "", start_date := "",
          completion_date := "", percent_complete := 0,
          creation_time := formatDatetime ct }

/-- The function `extract_tasks`. -/
def extractTasks (root : Folder) : List TaskData :=
  match findFolderByName "Tasks" root with
  | none => []
  | some f => f.subMessages.filterMap fun m => (extractTaskMsg m).toOption

/-- One note message (`extract_notes` loop body). -/
def extractNoteMsg (m : Message) : Except Unit NoteData :=
  andThen (getattrD m.subject "") fun subject =>
  andThen (getattrD m.plain_text_body "") fun body =>
  andThen (getattrD m.creation_time "") fun ct =>
  andThen (getattrD m.modification_time "") fun mt =>
  andThen (getattrD m.size 0) fun size =>
    .ok { subject := subject, body := body,
          creation_time := formatDatetime ct,
          modification_time := formatDatetime mt, color := "", size := size }

/-- The function `extract_notes`. -/
def extractNotes (root : Folder) : List NoteData :=
  match findFolderByName "Notes" root with
  | none => []
  | some f => f.subMessages.filterMap fun m => (extractNoteMsg m).toOption

/-- One journal message (`extract_journal` loop body). -/
def extractJournalMsg (m : Message) : Except Unit JournalData :=
  andThen (getattrD m.subject "") fun subject =>
  andThen (getattrD m.plain_text_body "") fun body =>
  andThen (getattrD m.creation_time "") fun ct =>
    .ok { subject := subject, body := body, entry_type := "",
          start_time := formatDatetime ct, duration := 0, companies := "",
          contacts := "", creation_time := formatDatetime ct }

/-- The function `extract_journal`. -/
def extractJournal (root : Folder) : List JournalData :=
  match findFolderByName "Journal" root with
  | none => []
  | some f => f.subMessages.filterMap fun m => (extractJournalMsg m).toOption

/-! ## Statistics (`generate_statistics`) -/

/-- Aggregate statistics. The `email_date_range` and `top_senders` keys are
only present in the Python dict when their guards hold, hence `Option`. -/
structure Statistics where
  total_emails : Nat
  total_contacts : Nat
  total_calendar_events : Nat
  total_tasks : Nat
  total_notes : Nat
  total_journal_entries : Nat
  total_attachments : Nat
  analysis_date : String
  pst_file : String
  pst_file_size : Nat
  email_date_range : Option (String × String)
  top_senders : Option (List (String × Nat))
deriving DecidableEq

/-- Python `senders[sender] = senders.get(sender, 0) + 1` on an insertion-ordered
mapping (a Python dict), represented as an association list. -/
def bumpSender (counts : List (String × Nat)) (s : String) :
    List (String × Nat) :=
  if counts.any fun p => p.1 = s then
    counts.map fun p => if p.1 = s then (p.1, p.2 + 1) else p
  else counts ++ [(s, 1)]

/-- The per-sender tally, keyed in first-seen order. -/
def senderCounts (emails : List EmailData) : List (String × Nat) :=
  emails.foldl (fun acc e => bumpSender acc e.sender_email) []

/-- The order of `sorted(senders.items(), key=lambda x: x[1], reverse=True)`:
`a` may stay before `b` exactly when its count is at least `b`'s. -/
def sendersOrder (a b : String × Nat) : Prop := b.2 ≤ a.2

instance : DecidableRel sendersOrder := fun a b => Nat.decLe b.2 a.2

instance : IsTotal (String × Nat) sendersOrder :=
  ⟨fun a b => by simp only [sendersOrder]; exact Nat.le_total b.2 a.2⟩

instance : IsTrans (String × Nat) sendersOrder :=
  ⟨fun _ _ _ hab hbc => by
    simp only [sendersOrder] at *
    exact Nat.le_trans hbc hab⟩

/-- Python `sorted(senders.items(), key=lambda x: x[1], reverse=True)[:10]`:
Python's `sorted` is a stable sort, modelled by stable insertion sort under
the descending-count order. -/
def topSendersOf (emails : List EmailData) : List (String × Nat) :=
  (List.insertionSort sendersOrder (senderCounts emails)).take 10

/-- The delivery-time strings of the emails that have one (`if email['delivery_time']`). -/
def emailDates (emails : List EmailData) : List String :=
  (emails.map fun e => e.delivery_time).filter fun d => d ≠ ""

def strMin (a b : String) : String := if b < a then b else a

def strMax (a b : String) : String := if a < b then b else a

/-- Python `{'earliest': min(dates), 'latest': max(dates)}` when `dates` is
non-empty (string comparison over the canonical timestamp format). -/
def dateRange (emails : List EmailData) : Option (String × String) :=
  match emailDates emails with
  | [] => none
  | d :: rest => some (rest.foldl strMin d, rest.foldl strMax d)

/-- The in-memory corpus `analysis_results`. -/
structure ResultsData where
  emails : List EmailData
  contacts : List ContactData
  calendar : List CalendarData
  tasks : List TaskData
  notes : List NoteData
  journal : List JournalData
  attachments : List AttachmentData
  statistics : Option Statistics
deriving DecidableEq

/-- The function `generate_statistics` over a completed corpus. `pstPath`, `fileSize` and
`now` stand for the source path, its on-disk size, and the wall clock. -/
def generateStatistics (pstPath : String) (fileSize : Nat) (now : String)
    (r : ResultsData) : Statistics :=
  { total_emails := r.emails.length,
    total_contacts := r.contacts.length,
    total_calendar_events := r.calendar.length,
    total_tasks := r.tasks.length,
    total_notes := r.notes.length,
    total_journal_entries := r.journal.length,
    total_attachments := r.attachments.length,
    analysis_date := now,
    pst_file := pstPath,
    pst_file_size := fileSize,
    email_date_range := if r.emails.isEmpty then none else dateRange r.emails,
    top_senders :=
      if r.emails.isEmpty then none
      else if (senderCounts r.emails).isEmpty then none
      else some (topSendersOf r.emails) }

/-! ## Serialization (`save_results`, `_save_csv_results`) -/

/-- One row of the tabular (CSV) export, in its fixed column set. -/
structure CsvRow where
  id : String
  folder : String
  subject : String
  sender_name : String
  sender_email : String
  delivery_time : String
  size : Nat
  attachments_count : Nat
deriving DecidableEq

/-- The row written for one email: `attachments_count` is computed at
serialization time as `len(email['attachments'])` (the email record stores
no such count field). -/
def toCsvRow (e : EmailData) : CsvRow :=
  { id := e.id, folder := e.folder, subject := e.subject,
    sender_name := e.sender_name, sender_email := e.sender_email,
    delivery_time := e.delivery_time, size := e.size,
    attachments_count := e.attachments.length }

/-- The function `_save_csv_results`: the emails CSV is written only when the email list
is non-empty (`if self.analysis_results['emails']:`). -/
def saveCsvResults (emails : List EmailData) : Option (List CsvRow) :=
  if emails.isEmpty then none else some (emails.map toCsvRow)

/-! ## The full run (`perform_full_analysis`) -/

/-- The states of a single run. -/
inductive RunState where
  | closed
  | opened
  | extracting
  | aggregated
  | serialized
deriving DecidableEq

/-- A store as seen by `open_pst_file`: whether opening succeeds (the file
exists and the container is readable), the folder tree it exposes, and the
run metadata. -/
structure Store where
  openable : Bool
  root : Folder
  path : String
  fileSize : Nat

/-- The observable outcome of `perform_full_analysis`: the boolean result,
the run states entered in order, the final corpus, and the two outputs
(`none` when the corresponding file was not written). -/
structure RunResult where
  success : Bool
  states : List RunState
  results : ResultsData
  jsonOutput : Option ResultsData
  csvOutput : Option (List CsvRow)
deriving DecidableEq

/-- The initial `analysis_results` value. -/
def emptyResults : ResultsData :=
  { emails := [], contacts := [], calendar := [], tasks := [], notes := [],
    journal := [], attachments := [], statistics := none }

/-- The function `perform_full_analysis`: a failed open is fatal (`False`, nothing
written, no later state entered); once open succeeds, every phase runs
unconditionally — each extractor contains its own failures — and both
serialization steps are reached. The JSON document is always written there;
the CSV only when emails exist. -/
def performFullAnalysis (outputRoot now : String) (st : Store) : RunResult :=
  if st.openable then
    let ea := extractEmailsRoot outputRoot now st.root
    let r0 : ResultsData :=
      { emails := ea.1, contacts := extractContacts st.root,
        calendar := extractCalendar st.root, tasks := extractTasks st.root,
        notes := extractNotes st.root, journal := extractJournal st.root,
        attachments := ea.2, statistics := none }
    let stats := generateStatistics st.path st.fileSize now r0
    let r1 : ResultsData := { r0 with statistics := some stats }
    { success := true,
      states := [.closed, .opened, .extracting, .aggregated, .serialized,
                 .closed],
      results := r1,
      jsonOutput := some r1,
      csvOutput := saveCsvResults r1.emails }
  else
    { success := false, states := [.closed], results := emptyResults,
      jsonOutput := none, csvOutput := none }

/-! ## Failure-shape predicates used by the claims -/

/-- A message on which every attribute access raises. -/
def messageAllErr (m : Message) : Prop :=
  m.subject = .err ∧ m.sender_name = .err ∧ m.sender_email_address = .err ∧
  m.plain_text_body = .err ∧ m.html_body = .err ∧ m.delivery_time = .err ∧
  m.creation_time = .err ∧ m.modification_time = .err ∧ m.size = .err ∧
  m.message_class = .err ∧ m.priority = .err ∧ m.importance = .err ∧
  m.categories = .err ∧ m.is_read = .err ∧ m.recipients = .err ∧
  m.attachments = .err

instance (m : Message) : Decidable (messageAllErr m) := by
  unfold messageAllErr
  infer_instance

/-- A message whose normalization fails only after the attachment step has
already appended to the corpus-wide list (a `categories`/`is_read` read
raises while every earlier read succeeded). -/
def failsAfterAtts (m : Message) : Bool :=
  exceptOk (readPreFields m) && !exceptOk (readPostFields m)

/-- The attachment list carried by a normalization result. -/
def emailAtts : Option EmailData → List AttachmentData
  | some e => e.attachments
  | none => []

/-! ## Spec-side formulation of the filename sanitizer

The specification describes the sanitizer independently of the code: keep
exactly the characters that are alphanumeric or in the set
`{space, hyphen, underscore, dot}`, trim trailing whitespace, and fall back
to `attachment_<index>` when nothing remains. -/

/-- The spec's kept-character set: alphanumeric or one of space, hyphen,
underscore, dot. -/
def specKeptChar (c : Char) : Bool :=
  pyIsAlnum c || decide (c ∈ [' ', '-', '_', '.'])

/-- The sanitized name as the spec words it: the kept characters in order,
with trailing whitespace removed, replaced by `attachment_<index>` when
empty. -/
def specSafeFilename (filename : String) (index : Nat) : String :=
  let kept := filename.data.filter specKeptChar
  let trimmed := (kept.reverse.dropWhile Char.isWhitespace).reverse
  if trimmed = [] then "attachment_" ++ toString index else String.mk trimmed

/-! ## Concrete fixtures used by witnesses and counterexamples -/

/-- A well-behaved message: every read the normalizer performs succeeds. -/
def sampleMsg (subj : String) : Message :=
  { subject := .val subj, sender_name := .val "Alice",
    sender_email_address := .val "alice@example.com",
    plain_text_body := .val "hello", html_body := .absent,
    delivery_time := .val "2024-01-02 10:00:00",
    creation_time := .val "2024-01-02 09:00:00", modification_time := .absent,
    size := .val 5, message_class := .val "IPM.Note", priority := .absent,
    importance := .absent, categories := .absent, is_read := .val true,
    recipients := .absent, attachments := .absent }

/-- A message on which every attribute access raises. -/
def errAllMsg : Message :=
  { subject := .err, sender_name := .err, sender_email_address := .err,
    plain_text_body := .err, html_body := .err, delivery_time := .err,
    creation_time := .err, modification_time := .err, size := .err,
    message_class := .err, priority := .err, importance := .err,
    categories := .err, is_read := .err, recipients := .err,
    attachments := .err }

/-- A raw attachment with a declared name that needs sanitizing and a
non-empty payload. -/
def sampleAtt : RawAttachment :=
  { name := .val "a:b*c.txt", size := .val 2, attachment_type := .val "",
    data := .val (some [1, 2]) }

/-- A message whose reads all succeed except `categories`, which raises
after `_extract_attachments` has already run, and which carries one
attachment. -/
def postFailMsg : Message :=
  { sampleMsg "late" with categories := .err,
                          attachments := .val [sampleAtt] }

/-- The tree `root -> [A, B]`, `A -> [A1]`, with one message in each of
`A`, `A1` and `B`, used to exhibit the traversal order. -/
def orderTree : Folder :=
  .node "Root"
    (.cons (.node "A" (.cons (.node "A1" .nil [sampleMsg "a1"]) .nil)
        [sampleMsg "a"])
      (.cons (.node "B" .nil [sampleMsg "b"]) .nil))
    []

/-- A store whose tree is empty: a root with no sub-folders, no messages. -/
def emptyStore : Store :=
  { openable := true, root := .node "Root" .nil [], path := "data/empty.pst",
    fileSize := 0 }

/-- A store that fails to open (file missing or unreadable container). -/
def unopenableStore : Store :=
  { openable := false, root := .node "Root" .nil [sampleMsg "x"],
    path := "data/broken.pst", fileSize := 7 }

/-- A store containing only `postFailMsg`: its one message pollutes the
corpus-wide attachment list and is then dropped. -/
def postFailStore : Store :=
  { openable := true, root := .node "Root" .nil [postFailMsg],
    path := "data/late.pst", fileSize := 3 }

/-- A store with one well-behaved message carrying one attachment. -/
def oneMailStore : Store :=
  { openable := true,
    root := .node "Root" .nil
      [{ sampleMsg "hello" with attachments := .val [sampleAtt] }],
    path := "data/one.pst", fileSize := 9 }

/-- A store with two well-behaved messages agreeing on subject, sender
address and creation time — so their content-derived ids collide — where
only the first carries an attachment. -/
def collideStore : Store :=
  { openable := true,
    root := .node "Root" .nil
      [{ sampleMsg "same" with attachments := .val [sampleAtt] },
       sampleMsg "same"],
    path := "data/collide.pst", fileSize := 4 }

/-! # Theorems -/

theorem andThen_ok {α β : Type} (v : α) (f : α → Except Unit β) :
    andThen (.ok v) f = f v := rfl

theorem andThen_error {α β : Type} (e : Unit) (f : α → Except Unit β) :
    andThen (.error e) f = .error e := rfl

/-! ## Digest length facts -/

theorem length_flatMap_byteHex (l : List Nat) :
    (l.flatMap byteHex).length = 2 * l.length := by
  induction l with
  | nil => simp
  | cons a t ih =>
    simp only [List.flatMap_cons, List.length_append, ih, byteHex,
      List.length_cons, List.length_nil]
    omega

theorem md5Digest_length (msg : List Nat) : (md5Digest msg).length = 16 := by
  simp [md5Digest, wordLE]

theorem md5HexChars_length (msg : List Nat) :
    (md5HexChars msg).length = 32 := by
  rw [md5HexChars, length_flatMap_byteHex, md5Digest_length]

theorem md5Hex16_length (s : String) : (md5Hex16 s).length = 16 := by
  rw [md5Hex16, String.length_mk, List.length_take, md5HexChars_length]
  decide

set_option maxRecDepth 200000 in
/-- Known-answer test: the MD5 model reproduces the RFC 1321 digest of
`abc`, truncated to the id length the code uses. -/
theorem md5Hex16_abc : md5Hex16 "abc" = "900150983cd24fb0" := by decide

set_option maxRecDepth 200000 in
/-- Known-answer test: the MD5 model reproduces the RFC 1321 digest of the
empty string, truncated to the id length the code uses. -/
theorem md5Hex16_empty : md5Hex16 "" = "d41d8cd98f00b204" := by decide

/-! ## Claim C3: deterministic content-derived identity -/

/-- C3: `_generate_email_id` is deterministic: whenever the three content
reads (subject, sender address, creation time) succeed, the id is the MD5
hash of exactly their concatenation truncated to 16 hex characters
(64 bits) — independent of the wall clock (`now`), of which call computes
it, and of any other attribute of the message — and two messages agreeing
on those three fields receive the identical id. -/
theorem claim3_identity_deterministic (m m2 : Message) (now now2 : String)
    (s e c : String)
    (hs : getattrD m.subject "" = .ok s)
    (he : getattrD m.sender_email_address "" = .ok e)
    (hc : getattrD m.creation_time "" = .ok c)
    (hs2 : getattrD m2.subject "" = .ok s)
    (he2 : getattrD m2.sender_email_address "" = .ok e)
    (hc2 : getattrD m2.creation_time "" = .ok c) :
    generateEmailId now m = generateEmailId now2 m2 ∧
    generateEmailId now m = md5Hex16 (s ++ e ++ c) ∧
    (generateEmailId now m).length = 16 := by
  have h1 : generateEmailId now m = md5Hex16 (s ++ e ++ c) := by
    simp [generateEmailId, emailIdContent, hs, he, hc, andThen]
  have h2 : generateEmailId now2 m2 = md5Hex16 (s ++ e ++ c) := by
    simp [generateEmailId, emailIdContent, hs2, he2, hc2, andThen]
  exact ⟨h1.trans h2.symm, h1, h1 ▸ md5Hex16_length (s ++ e ++ c)⟩

theorem claim3_witness :
    generateEmailId "now1" (sampleMsg "S") = generateEmailId "now2" (sampleMsg "S") ∧
    generateEmailId "now1" (sampleMsg "S") =
      md5Hex16 ("S" ++ "alice@example.com" ++ "2024-01-02 09:00:00") ∧
    (generateEmailId "now1" (sampleMsg "S")).length = 16 :=
  claim3_identity_deterministic (sampleMsg "S") (sampleMsg "S") "now1" "now2"
    "S" "alice@example.com" "2024-01-02 09:00:00"
    rfl rfl rfl rfl rfl rfl

/-! ## Claim C5: filename sanitization -/

theorem specKeptChar_eq : specKeptChar = allowedFilenameChar := by
  funext c
  simp [specKeptChar, allowedFilenameChar, List.mem_cons, Bool.decide_or,
    Bool.or_assoc]

theorem dropWhile_congr_on {α : Type} {p q : α → Bool} :
    ∀ (l : List α), (∀ a ∈ l, p a = q a) → l.dropWhile p = l.dropWhile q := by
  intro l
  induction l with
  | nil => intro _; rfl
  | cons a t ih =>
    intro h
    have ha := h a (by simp)
    simp only [List.dropWhile_cons, ha]
    by_cases hq : q a = true
    · simp only [hq, if_true]
      exact ih fun b hb => h b (by simp [hb])
    · simp only [Bool.not_eq_true] at hq
      simp [hq]

theorem isWhitespace_eq_on_allowed (c : Char)
    (h : allowedFilenameChar c = true) :
    Char.isWhitespace c = pyIsSpace c := by
  by_cases h1 : c = ' '
  · subst h1; rfl
  by_cases h2 : c = '\t'
  · subst h2; simp [allowedFilenameChar, pyIsAlnum, Char.isAlpha,
      Char.isDigit, Char.isLower, Char.isUpper] at h
  by_cases h3 : c = '\n'
  · subst h3; simp [allowedFilenameChar, pyIsAlnum, Char.isAlpha,
      Char.isDigit, Char.isLower, Char.isUpper] at h
  by_cases h4 : c = '\r'
  · subst h4; simp [allowedFilenameChar, pyIsAlnum, Char.isAlpha,
      Char.isDigit, Char.isLower, Char.isUpper] at h
  by_cases h5 : c = '\x0b'
  · subst h5; simp [allowedFilenameChar, pyIsAlnum, Char.isAlpha,
      Char.isDigit, Char.isLower, Char.isUpper] at h
  by_cases h6 : c = '\x0c'
  · subst h6; simp [allowedFilenameChar, pyIsAlnum, Char.isAlpha,
      Char.isDigit, Char.isLower, Char.isUpper] at h
  simp [Char.isWhitespace, pyIsSpace, h1, h2, h3, h4, h5, h6]

/-- C5: the code's sanitizer coincides exactly with the spec's description
(keep alphanumerics and space/hyphen/underscore/dot, strip everything else,
trim trailing whitespace, fall back to `attachment_<index>` when empty), and
it maps the two documented examples as claimed: `"a:b*c.txt"` to
`"abc.txt"`, and an all-disallowed name to `attachment_<index>`. -/
theorem claim5_sanitizer :
    (∀ (s : String) (i : Nat), safeFilename s i = specSafeFilename s i) ∧
    safeFilename "a:b*c.txt" 0 = "abc.txt" ∧
    safeFilename ":*?" 7 = "attachment_7" := by
  refine ⟨fun s i => ?_, by decide, by decide⟩
  rw [safeFilename, specSafeFilename, specKeptChar_eq, sanitizeFilename]
  have hdw : ((s.data.filter allowedFilenameChar).reverse.dropWhile
      Char.isWhitespace) =
      ((s.data.filter allowedFilenameChar).reverse.dropWhile pyIsSpace) := by
    refine dropWhile_congr_on _ fun a ha => ?_
    rw [List.mem_reverse, List.mem_filter] at ha
    exact isWhitespace_eq_on_allowed a ha.2
  rw [hdw]
  by_cases hk : pyRstrip (s.data.filter allowedFilenameChar) = []
  · rw [pyRstrip] at hk
    simp [pyRstrip, hk]
  · rw [pyRstrip] at hk
    have hne : String.mk ((s.data.filter allowedFilenameChar).reverse.dropWhile
        pyIsSpace).reverse ≠ "" := by
      intro hcontra
      exact hk (congrArg String.data hcontra)
    simp [pyRstrip, hk, hne]

/-! ## Claim C7: top-senders bound and order -/

/-- C7: whenever `generate_statistics` produces a `top_senders` entry, it
has at most 10 elements and is sorted by per-sender count in descending
order. -/
theorem claim7_top_senders (pstPath : String) (fileSize : Nat) (now : String)
    (r : ResultsData) (l : List (String × Nat))
    (h : (generateStatistics pstPath fileSize now r).top_senders = some l) :
    l.length ≤ 10 ∧ l.Pairwise fun a b => b.2 ≤ a.2 := by
  have hl : l = topSendersOf r.emails := by
    simp only [generateStatistics] at h
    split at h
    · exact absurd h (by simp)
    · split at h
      · exact absurd h (by simp)
      · exact (Option.some.injEq _ _ ▸ h).symm
  subst hl
  refine ⟨?_, ?_⟩
  · rw [topSendersOf, List.length_take]
    exact min_le_left _ _
  · have hs := List.sorted_insertionSort sendersOrder (senderCounts r.emails)
    have hsub : (topSendersOf r.emails).Sublist
        (List.insertionSort sendersOrder (senderCounts r.emails)) :=
      List.take_sublist _ _
    exact List.Pairwise.sublist hsub hs

theorem claim7_witness :
    (topSendersOf (performFullAnalysis "out" "t" oneMailStore).results.emails).length ≤ 10 ∧
    (topSendersOf (performFullAnalysis "out" "t" oneMailStore).results.emails).Pairwise
      fun a b => b.2 ≤ a.2 :=
  claim7_top_senders "data/one.pst" 9 "t"
    { (performFullAnalysis "out" "t" oneMailStore).results with statistics := none }
    (topSendersOf (performFullAnalysis "out" "t" oneMailStore).results.emails)
    (by decide)

/-! ## Claim C8: fatal open failure, unconditional serialization -/

/-- C8: when the store cannot be opened the run returns `False`, writes no
output of any kind, and enters no state beyond `Closed`; once the open
succeeds, the run reaches serialization unconditionally (a state trace
ending in `Serialized` before the final close), with the tree document
written there. -/
theorem claim8_open_failure_fatal (outputRoot now : String) (st : Store) :
    (st.openable = false →
      (performFullAnalysis outputRoot now st).success = false ∧
      (performFullAnalysis outputRoot now st).jsonOutput = none ∧
      (performFullAnalysis outputRoot now st).csvOutput = none ∧
      (performFullAnalysis outputRoot now st).results = emptyResults ∧
      (performFullAnalysis outputRoot now st).states = [RunState.closed]) ∧
    (st.openable = true →
      (performFullAnalysis outputRoot now st).success = true ∧
      RunState.serialized ∈ (performFullAnalysis outputRoot now st).states ∧
      (performFullAnalysis outputRoot now st).jsonOutput =
        some (performFullAnalysis outputRoot now st).results) := by
  constructor
  · intro hopen
    simp [performFullAnalysis, hopen]
  · intro hopen
    simp [performFullAnalysis, hopen]

theorem claim8_witness :
    (performFullAnalysis "out" "t" unopenableStore).success = false ∧
    RunState.serialized ∈ (performFullAnalysis "out" "t" emptyStore).states :=
  ⟨((claim8_open_failure_fatal "out" "t" unopenableStore).1 rfl).1,
   ((claim8_open_failure_fatal "out" "t" emptyStore).2 rfl).2.1⟩

/-! ## Claim C1: traversal order -/

/-- C1 counterexample: on the tree `root -> [A, B]`, `A -> [A1]` with one
message each in `A`, `A1`, `B`, the extraction yields the item of `A1`
strictly before the item of `A` — `extract_emails` recurses into
sub-folders before processing the folder's own messages, so a folder's own
items do NOT precede its sub-folders' items as the claim states. -/
theorem claim1_counterexample :
    ((extractEmailsRoot "out" "t" orderTree).1.map fun e => e.subject) =
      ["a1", "a", "b"] ∧
    ¬ (((extractEmailsRoot "out" "t" orderTree).1.map fun e => e.subject).indexOf
        "a" <
       ((extractEmailsRoot "out" "t" orderTree).1.map fun e => e.subject).indexOf
        "a1") := by
  decide

/-- C1 amended: the email sequence is depth-first with sub-folders first:
for every store shaped `root -> [A, B]` with `A -> [A1]` (arbitrary message
lists everywhere), the produced sequence is exactly A1's items, then A's
direct items, then B's items, then the root's own items — sub-folders are
visited in the order the store presents them, and all of A's subtree's
items precede all of B's items, but each folder's own direct items come
after (not before) its sub-folders' items. -/
theorem claim1_amended (R now rootName aName a1Name bName : String)
    (ma ma1 mb mr : List Message) :
    (extractEmailsRoot R now (.node rootName
       (.cons (.node aName (.cons (.node a1Name .nil ma1) .nil) ma)
         (.cons (.node bName .nil mb) .nil)) mr)).1 =
    (extractMsgs R now ma1 (childPath (childPath "" aName) a1Name)).1 ++
    (extractMsgs R now ma (childPath "" aName)).1 ++
    (extractMsgs R now mb (childPath "" bName)).1 ++
    (extractMsgs R now mr "").1 := by
  simp [extractEmailsRoot, extractEmailsFolder, extractEmailsSubs,
    Folder.name, List.append_assoc]

/-! ## Claim C2: empty store -/

/-- C2 counterexample: on a concretely empty store the run succeeds with
`total_emails = 0`, but the `top_senders` key is absent from the statistics
(not the empty sequence), and the tabular (CSV) output is NOT written —
`_save_csv_results` only writes the emails CSV when the email list is
non-empty. -/
theorem claim2_counterexample :
    (performFullAnalysis "out" "t" emptyStore).success = true ∧
    ((performFullAnalysis "out" "t" emptyStore).results.statistics).map
      (fun s => s.total_emails) = some 0 ∧
    ((performFullAnalysis "out" "t" emptyStore).results.statistics).map
      (fun s => s.top_senders) = some none ∧
    (performFullAnalysis "out" "t" emptyStore).csvOutput = none := by
  decide

theorem findFolderByName_leaf (t nm : String) (msgs : List Message) :
    findFolderByName t (.node nm .nil msgs) = some (.node nm .nil msgs) ∨
    findFolderByName t (.node nm .nil msgs) = none := by
  rw [findFolderByName]
  split
  · exact .inl rfl
  · exact .inr (by rw [findFolderInList])

/-- C2 amended: an empty store (root folder with no sub-folders and no
messages) yields a successful run with `total_emails = 0`, every collection
empty, NO `top_senders` entry in the statistics (the key is only written
for a non-empty corpus), the tree (JSON) document written with those empty
collections — but the tabular (CSV) output is not written, because the
emails CSV is only produced when at least one email exists. -/
theorem claim2_amended (outputRoot now nm : String) (st : Store)
    (hopen : st.openable = true)
    (hroot : st.root = .node nm .nil []) :
    (performFullAnalysis outputRoot now st).success = true ∧
    (performFullAnalysis outputRoot now st).results.emails = [] ∧
    (performFullAnalysis outputRoot now st).results.contacts = [] ∧
    (performFullAnalysis outputRoot now st).results.calendar = [] ∧
    (performFullAnalysis outputRoot now st).results.tasks = [] ∧
    (performFullAnalysis outputRoot now st).results.notes = [] ∧
    (performFullAnalysis outputRoot now st).results.journal = [] ∧
    (performFullAnalysis outputRoot now st).results.attachments = [] ∧
    ((performFullAnalysis outputRoot now st).results.statistics).map
      (fun s => s.total_emails) = some 0 ∧
    ((performFullAnalysis outputRoot now st).results.statistics).map
      (fun s => s.top_senders) = some none ∧
    (performFullAnalysis outputRoot now st).jsonOutput =
      some (performFullAnalysis outputRoot now st).results ∧
    (performFullAnalysis outputRoot now st).csvOutput = none := by
  have hext : extractEmailsRoot outputRoot now st.root = ([], []) := by
    rw [hroot]
    simp [extractEmailsRoot, extractEmailsFolder, extractEmailsSubs,
      extractMsgs]
  have hc : extractContacts st.root = [] := by
    rw [hroot, extractContacts]
    rcases findFolderByName_leaf "Contacts" nm [] with h | h <;>
      rw [h] <;> simp [Folder.subMessages]
  have hcal : extractCalendar st.root = [] := by
    rw [hroot, extractCalendar]
    rcases findFolderByName_leaf "Calendar" nm [] with h | h <;>
      rw [h] <;> simp [Folder.subMessages]
  have htk : extractTasks st.root = [] := by
    rw [hroot, extractTasks]
    rcases findFolderByName_leaf "Tasks" nm [] with h | h <;>
      rw [h] <;> simp [Folder.subMessages]
  have hnt : extractNotes st.root = [] := by
    rw [hroot, extractNotes]
    rcases findFolderByName_leaf "Notes" nm [] with h | h <;>
      rw [h] <;> simp [Folder.subMessages]
  have hj : extractJournal st.root = [] := by
    rw [hroot, extractJournal]
    rcases findFolderByName_leaf "Journal" nm [] with h | h <;>
      rw [h] <;> simp [Folder.subMessages]
  simp [performFullAnalysis, hopen, hext, hc, hcal, htk, hnt, hj,
    generateStatistics, saveCsvResults]

theorem claim2_witness :
    (performFullAnalysis "out2" "t2" emptyStore).success = true ∧
    (performFullAnalysis "out2" "t2" emptyStore).results.emails = [] ∧
    (performFullAnalysis "out2" "t2" emptyStore).results.contacts = [] ∧
    (performFullAnalysis "out2" "t2" emptyStore).results.calendar = [] ∧
    (performFullAnalysis "out2" "t2" emptyStore).results.tasks = [] ∧
    (performFullAnalysis "out2" "t2" emptyStore).results.notes = [] ∧
    (performFullAnalysis "out2" "t2" emptyStore).results.journal = [] ∧
    (performFullAnalysis "out2" "t2" emptyStore).results.attachments = [] ∧
    ((performFullAnalysis "out2" "t2" emptyStore).results.statistics).map
      (fun s => s.total_emails) = some 0 ∧
    ((performFullAnalysis "out2" "t2" emptyStore).results.statistics).map
      (fun s => s.top_senders) = some none ∧
    (performFullAnalysis "out2" "t2" emptyStore).jsonOutput =
      some (performFullAnalysis "out2" "t2" emptyStore).results ∧
    (performFullAnalysis "out2" "t2" emptyStore).csvOutput = none :=
  claim2_amended "out2" "t2" "Root" emptyStore rfl rfl

/-! ## Claim C6: per-message fault isolation -/

theorem extractSingleEmail_subject_err (R now p : String) (m : Message)
    (h : m.subject = .err) :
    extractSingleEmail R now m p = (none, []) := by
  simp [extractSingleEmail, readPreFields, h, getattrD, andThen]

/-- C6: a message on which every attribute access raises is contained at
that message boundary: the folder's traversal result is identical to the
result without that message — every sibling is still normalized, in order —
and any successfully opened run still reaches serialization. -/
theorem claim6_fault_isolation (R now p nm : String) (xs ys : List Message)
    (m : Message) (hm : messageAllErr m) :
    extractEmailsFolder R now (.node nm .nil (xs ++ m :: ys)) p =
      extractEmailsFolder R now (.node nm .nil (xs ++ ys)) p ∧
    (extractMsgs R now (xs ++ m :: ys) p).1 =
      (extractMsgs R now (xs ++ ys) p).1 ∧
    ∀ st : Store, st.openable = true →
      RunState.serialized ∈ (performFullAnalysis R now st).states := by
  have hone : extractSingleEmail R now m p = (none, []) :=
    extractSingleEmail_subject_err R now p m hm.1
  have key : extractMsgs R now (xs ++ m :: ys) p =
      extractMsgs R now (xs ++ ys) p := by
    induction xs with
    | nil => simp [extractMsgs, hone]
    | cons a t ih => simp [extractMsgs, ih]
  refine ⟨?_, by rw [key], fun st hst => ?_⟩
  · simp [extractEmailsFolder, key]
  · simp [performFullAnalysis, hst]

theorem claim6_witness :
    extractEmailsFolder "o" "t" (.node "F" .nil
        ([sampleMsg "m1"] ++ errAllMsg :: [sampleMsg "m3"])) "p" =
      extractEmailsFolder "o" "t" (.node "F" .nil
        ([sampleMsg "m1"] ++ [sampleMsg "m3"])) "p" ∧
    (extractMsgs "o" "t" ([sampleMsg "m1"] ++ errAllMsg :: [sampleMsg "m3"]) "p").1 =
      (extractMsgs "o" "t" ([sampleMsg "m1"] ++ [sampleMsg "m3"]) "p").1 ∧
    ∀ st : Store, st.openable = true →
      RunState.serialized ∈ (performFullAnalysis "o" "t" st).states :=
  claim6_fault_isolation "o" "t" "p" "F" [sampleMsg "m1"] [sampleMsg "m3"]
    errAllMsg (by decide)

/-! ## Corpus-wide attachment bookkeeping (shared by C4 and C10) -/

theorem extractSingleEmail_snd_emailAtts (R now p : String) (m : Message)
    (h : failsAfterAtts m = false) :
    (extractSingleEmail R now m p).2 =
      emailAtts (extractSingleEmail R now m p).1 := by
  cases hpre : readPreFields m with
  | error e => simp [extractSingleEmail, hpre, emailAtts]
  | ok f =>
    cases hpost : readPostFields m with
    | ok post => simp [extractSingleEmail, hpre, hpost, emailAtts]
    | error e =>
      rw [failsAfterAtts, hpre, hpost] at h
      simp [exceptOk] at h

theorem extractMsgs_snd_flatMap (R now p : String) (msgs : List Message)
    (h : ∀ m ∈ msgs, failsAfterAtts m = false) :
    (extractMsgs R now msgs p).2 =
      (extractMsgs R now msgs p).1.flatMap fun e => e.attachments := by
  induction msgs with
  | nil => simp [extractMsgs]
  | cons m t ih =>
    have hm := h m (by simp)
    have ht := ih fun x hx => h x (by simp [hx])
    have hsnd := extractSingleEmail_snd_emailAtts R now p m hm
    cases ho : (extractSingleEmail R now m p).1 with
    | none =>
      rw [ho] at hsnd
      simp only [emailAtts] at hsnd
      simp [extractMsgs, ho, hsnd, ht]
    | some e =>
      rw [ho] at hsnd
      simp only [emailAtts] at hsnd
      simp [extractMsgs, ho, hsnd, ht, List.flatMap_cons]

mutual
theorem extractEmailsFolder_snd_flatMap (R now : String) :
    ∀ (f : Folder) (p : String),
      (∀ m ∈ f.allMessages, failsAfterAtts m = false) →
      (extractEmailsFolder R now f p).2 =
        (extractEmailsFolder R now f p).1.flatMap fun e => e.attachments
  | .node nm subs msgs, p, h => by
    have hsubs := extractEmailsSubs_snd_flatMap R now subs p
      fun m hm => h m (by simp [Folder.allMessages, hm])
    have hmsgs := extractMsgs_snd_flatMap R now p msgs
      fun m hm => h m (by simp [Folder.allMessages, hm])
    simp [extractEmailsFolder, hsubs, hmsgs]

theorem extractEmailsSubs_snd_flatMap (R now : String) :
    ∀ (fl : FolderList) (p : String),
      (∀ m ∈ fl.allMessages, failsAfterAtts m = false) →
      (extractEmailsSubs R now fl p).2 =
        (extractEmailsSubs R now fl p).1.flatMap fun e => e.attachments
  | .nil, p, _ => by simp [extractEmailsSubs]
  | .cons f rest, p, h => by
    have h1 := extractEmailsFolder_snd_flatMap R now f (childPath p f.name)
      fun m hm => h m (by simp [FolderList.allMessages, hm])
    have h2 := extractEmailsSubs_snd_flatMap R now rest p
      fun m hm => h m (by simp [FolderList.allMessages, hm])
    simp [extractEmailsSubs, h1, h2]
end

theorem extractAttachmentsList_email_id (R id : String) :
    ∀ (l : List RawAttachment) (i : Nat) (a : AttachmentData),
      a ∈ extractAttachmentsList R id l i → a.email_id = id := by
  intro l
  induction l with
  | nil =>
    intro i a ha
    simp [extractAttachmentsList] at ha
  | cons x t ih =>
    intro i a ha
    cases hn : getattrD x.name ("attachment_" ++ toString i) with
    | error e => simp [extractAttachmentsList, hn] at ha
    | ok nm =>
      cases hs : getattrD x.size 0 with
      | error e => simp [extractAttachmentsList, hn, hs] at ha
      | ok sz =>
        cases hty : getattrD x.attachment_type "" with
        | error e => simp [extractAttachmentsList, hn, hs, hty] at ha
        | ok ty =>
          simp only [extractAttachmentsList, hn, hs, hty,
            List.mem_cons] at ha
          rcases ha with rfl | ha
          · rfl
          · exact ih (i + 1) a ha

theorem extractAttachments_email_id (R id : String) (m : Message)
    (a : AttachmentData) (ha : a ∈ extractAttachments R m id) :
    a.email_id = id := by
  cases hat : m.attachments with
  | val l =>
    rw [extractAttachments, hat] at ha
    exact extractAttachmentsList_email_id R id l 0 a ha
  | absent => rw [extractAttachments, hat] at ha; simp at ha
  | err => rw [extractAttachments, hat] at ha; simp at ha

theorem extractSingleEmail_some (R now p : String) (m : Message)
    (e : EmailData) (h : (extractSingleEmail R now m p).1 = some e) :
    e.id = generateEmailId now m ∧
    e.attachments = extractAttachments R m (generateEmailId now m) := by
  cases hpre : readPreFields m with
  | error er => simp [extractSingleEmail, hpre] at h
  | ok f =>
    cases hpost : readPostFields m with
    | error er => simp [extractSingleEmail, hpre, hpost] at h
    | ok post =>
      simp only [extractSingleEmail, hpre, hpost, Option.some.injEq] at h
      subst h
      exact ⟨rfl, rfl⟩

theorem extractMsgs_own_id (R now p : String) (msgs : List Message) :
    ∀ e ∈ (extractMsgs R now msgs p).1, ∀ a ∈ e.attachments,
      a.email_id = e.id := by
  induction msgs with
  | nil => simp [extractMsgs]
  | cons m t ih =>
    intro e he a ha
    cases ho : (extractSingleEmail R now m p).1 with
    | none =>
      rw [extractMsgs] at he
      simp only [ho] at he
      exact ih e he a ha
    | some e0 =>
      rw [extractMsgs] at he
      simp only [ho, List.mem_cons] at he
      rcases he with rfl | he
      · obtain ⟨hid, hatts⟩ := extractSingleEmail_some R now p m e ho
        rw [hid]
        exact extractAttachments_email_id R _ m a (hatts ▸ ha)
      · exact ih e he a ha

mutual
theorem extractEmailsFolder_own_id (R now : String) :
    ∀ (f : Folder) (p : String), ∀ e ∈ (extractEmailsFolder R now f p).1,
      ∀ a ∈ e.attachments, a.email_id = e.id
  | .node nm subs msgs, p, e, he, a, ha => by
    rw [extractEmailsFolder] at he
    simp only [List.mem_append] at he
    rcases he with he | he
    · exact extractEmailsSubs_own_id R now subs p e he a ha
    · exact extractMsgs_own_id R now p msgs e he a ha

theorem extractEmailsSubs_own_id (R now : String) :
    ∀ (fl : FolderList) (p : String), ∀ e ∈ (extractEmailsSubs R now fl p).1,
      ∀ a ∈ e.attachments, a.email_id = e.id
  | .nil, p, e, he, a, ha => by
    rw [extractEmailsSubs] at he
    simp at he
  | .cons f rest, p, e, he, a, ha => by
    rw [extractEmailsSubs] at he
    simp only [List.mem_append] at he
    rcases he with he | he
    · exact extractEmailsFolder_own_id R now f (childPath p f.name) e he a ha
    · exact extractEmailsSubs_own_id R now rest p e he a ha
end

/-- Counting a single email's attachments inside the concatenated
corpus-wide list: with per-email owner ids attached correctly and email ids
pairwise distinct, the records whose owning id matches an email are exactly
that email's own. -/
theorem flatMap_filter_count (es : List EmailData)
    (hown : ∀ e ∈ es, ∀ a ∈ e.attachments, a.email_id = e.id)
    (hids : (es.map fun e => e.id).Nodup) :
    ∀ e ∈ es,
      ((es.flatMap fun x => x.attachments).filter
        fun a => a.email_id == e.id).length = e.attachments.length := by
  induction es with
  | nil => simp
  | cons e0 rest ih =>
    have hnd : e0.id ∉ rest.map fun e => e.id := by
      rw [List.map_cons, List.nodup_cons] at hids
      exact hids.1
    have hrest : (rest.map fun e => e.id).Nodup := by
      rw [List.map_cons, List.nodup_cons] at hids
      exact hids.2
    have hne : ∀ x ∈ rest, x.id ≠ e0.id := by
      intro x hx hcontra
      exact hnd (hcontra ▸ List.mem_map_of_mem (fun e => e.id) hx)
    intro e he
    rcases List.mem_cons.mp he with rfl | he
    · rw [List.flatMap_cons, List.filter_append]
      have h1 : (e.attachments.filter fun a => a.email_id == e.id) =
          e.attachments :=
        List.filter_eq_self.mpr fun a ha => by
          simp [hown e (by simp) a ha]
      have h2 : ((rest.flatMap fun x => x.attachments).filter
          fun a => a.email_id == e.id) = [] := by
        refine List.filter_eq_nil_iff.mpr fun a ha => ?_
        obtain ⟨x, hx, hax⟩ := List.mem_flatMap.mp ha
        have := hown x (by simp [hx]) a hax
        simp [this, hne x hx]
      rw [h1, h2]
      simp
    · rw [List.flatMap_cons, List.filter_append]
      have h1 : (e0.attachments.filter fun a => a.email_id == e.id) = [] := by
        refine List.filter_eq_nil_iff.mpr fun a ha => ?_
        have := hown e0 (by simp) a ha
        have hne2 : e0.id ≠ e.id := fun hcontra => hne e he hcontra.symm
        simp [this, hne2]
      rw [h1]
      simp only [List.nil_append]
      exact ih (fun x hx => hown x (by simp [hx])) hrest e he

/-! ## Claim C10: corpus-wide attachments vs per-email attachments -/

/-- C10 counterexample: a message whose `categories` accessor raises after
its attachment was already extracted pollutes the corpus-wide attachment
list while the email itself is dropped: the run ends with no emails but one
corpus-wide attachment record, so the corpus-wide sequence is not the
concatenation of the (zero) extracted emails' attachment sequences, and
`total_attachments = 1` differs from the per-email sum `0`. -/
theorem claim10_counterexample :
    (performFullAnalysis "out" "t" postFailStore).results.emails = [] ∧
    ((performFullAnalysis "out" "t" postFailStore).results.attachments).length
      = 1 ∧
    (performFullAnalysis "out" "t" postFailStore).results.attachments ≠
      ((performFullAnalysis "out" "t" postFailStore).results.emails).flatMap
        (fun e => e.attachments) ∧
    ((performFullAnalysis "out" "t" postFailStore).results.statistics).map
      (fun s => s.total_attachments) = some 1 := by
  have h1 : (performFullAnalysis "out" "t" postFailStore).results.emails
      = [] := by decide
  have h2 : ((performFullAnalysis "out" "t"
      postFailStore).results.attachments).length = 1 := by decide
  refine ⟨h1, h2, fun hcontra => ?_, by decide⟩
  rw [h1] at hcontra
  simp only [List.flatMap_nil] at hcontra
  rw [hcontra] at h2
  simp at h2

/-- C10 amended: provided no message's normalization fails after its
attachment step (in particular whenever every message normalizes
successfully), the corpus-wide attachment sequence is exactly the
concatenation, in email-traversal order, of each extracted email's own
attachment sequence, every attachment record carries its owning email's id,
and `total_attachments` equals the sum over all emails of their attachment
counts. Without that proviso the equality can fail (see the
counterexample): a message dropped by a post-attachment failure leaves its
records in the corpus-wide list only. -/
theorem claim10_amended (R now : String) (st : Store)
    (hopen : st.openable = true)
    (hclean : ∀ m ∈ st.root.allMessages, failsAfterAtts m = false) :
    (performFullAnalysis R now st).results.attachments =
      ((performFullAnalysis R now st).results.emails).flatMap
        (fun e => e.attachments) ∧
    (∀ e ∈ (performFullAnalysis R now st).results.emails,
      ∀ a ∈ e.attachments, a.email_id = e.id) ∧
    ((performFullAnalysis R now st).results.statistics).map
      (fun s => s.total_attachments) =
      some ((((performFullAnalysis R now st).results.emails).map
        fun e => e.attachments.length).sum) := by
  have hflat := extractEmailsFolder_snd_flatMap R now st.root "" hclean
  have hown := extractEmailsFolder_own_id R now st.root ""
  constructor
  · simp [performFullAnalysis, hopen, extractEmailsRoot, hflat]
  constructor
  · intro e he a ha
    refine hown e ?_ a ha
    simpa [performFullAnalysis, hopen, extractEmailsRoot] using he
  · simp only [performFullAnalysis, hopen, if_true, extractEmailsRoot,
      generateStatistics, Option.map_some, hflat, List.length_flatMap]
    rfl

theorem claim10_witness :
    (performFullAnalysis "out" "t" oneMailStore).results.attachments =
      ((performFullAnalysis "out" "t" oneMailStore).results.emails).flatMap
        (fun e => e.attachments) ∧
    (∀ e ∈ (performFullAnalysis "out" "t" oneMailStore).results.emails,
      ∀ a ∈ e.attachments, a.email_id = e.id) ∧
    ((performFullAnalysis "out" "t" oneMailStore).results.statistics).map
      (fun s => s.total_attachments) =
      some ((((performFullAnalysis "out" "t" oneMailStore).results.emails).map
        fun e => e.attachments.length).sum) :=
  claim10_amended "out" "t" oneMailStore rfl (by decide)

/-! ## Claim C4: attachments_count consistency -/

set_option maxRecDepth 200000 in
/-- C4 counterexample: the claimed equivalence with "the number of
attachment records whose owning email id matches that email" fails on real
runs. Two readable messages sharing subject, sender address and creation
time collapse to one id; when only the first carries an attachment, the
second email's CSV row has `attachments_count = 0` while exactly one
corpus-wide record matches its id. The per-email pairs
(row count, matching-id count) come out `[(1, 1), (0, 1)]`, so the claimed
equality is false for the second email. -/
theorem claim4_counterexample :
    ((performFullAnalysis "out" "t" collideStore).results.emails.map
      fun e => ((toCsvRow e).attachments_count,
        (((performFullAnalysis "out" "t" collideStore).results.attachments).filter
          fun a => a.email_id == e.id).length)) = [(1, 1), (0, 1)] ∧
    ¬ ∀ e ∈ (performFullAnalysis "out" "t" collideStore).results.emails,
      (toCsvRow e).attachments_count =
        (((performFullAnalysis "out" "t" collideStore).results.attachments).filter
          fun a => a.email_id == e.id).length := by
  decide

/-- C4 amended: the `attachments_count` field of an email's CSV row is
computed at serialization time as the length of that email's attachment
sequence — for every email value, not just stored ones, since the email
record holds no count field to read — and the rows written are exactly the
per-email rows. The further reading "equals the number of attachment
records whose owning email id matches that email" holds only when email
ids are pairwise distinct and no message's normalization failed after its
attachment step; id collisions (messages sharing subject, sender and
creation time — the spec's own open question) break it, as the
counterexample shows. -/
theorem claim4_attachments_count (R now : String) (st : Store)
    (hopen : st.openable = true)
    (hclean : ∀ m ∈ st.root.allMessages, failsAfterAtts m = false)
    (hids : (((performFullAnalysis R now st).results.emails).map
      fun e => e.id).Nodup) :
    (∀ e : EmailData, (toCsvRow e).attachments_count = e.attachments.length) ∧
    (∀ rows, (performFullAnalysis R now st).csvOutput = some rows →
      rows = ((performFullAnalysis R now st).results.emails).map toCsvRow) ∧
    (∀ e ∈ (performFullAnalysis R now st).results.emails,
      (toCsvRow e).attachments_count =
        (((performFullAnalysis R now st).results.attachments).filter
          fun a => a.email_id == e.id).length) := by
  refine ⟨fun e => rfl, ?_, ?_⟩
  · intro rows hrows
    simp only [performFullAnalysis, hopen, if_true, saveCsvResults] at hrows ⊢
    split at hrows
    · exact absurd hrows (by simp)
    · simpa using hrows.symm
  · intro e he
    have hflat := extractEmailsFolder_snd_flatMap R now st.root "" hclean
    have hown := extractEmailsFolder_own_id R now st.root ""
    have hemails : (performFullAnalysis R now st).results.emails =
        (extractEmailsFolder R now st.root "").1 := by
      simp [performFullAnalysis, hopen, extractEmailsRoot]
    have hatts : (performFullAnalysis R now st).results.attachments =
        (extractEmailsFolder R now st.root "").2 := by
      simp [performFullAnalysis, hopen, extractEmailsRoot]
    rw [hatts, hflat]
    rw [hemails] at he
    have hids2 : (((extractEmailsFolder R now st.root "").1.map
        fun e => e.id)).Nodup := by
      rw [hemails] at hids
      exact hids
    exact (flatMap_filter_count (extractEmailsFolder R now st.root "").1
      hown hids2 e he).symm

theorem claim4_witness :
    (∀ e : EmailData, (toCsvRow e).attachments_count = e.attachments.length) ∧
    (∀ rows, (performFullAnalysis "out" "t" oneMailStore).csvOutput = some rows →
      rows = ((performFullAnalysis "out" "t" oneMailStore).results.emails).map
        toCsvRow) ∧
    (∀ e ∈ (performFullAnalysis "out" "t" oneMailStore).results.emails,
      (toCsvRow e).attachments_count =
        (((performFullAnalysis "out" "t" oneMailStore).results.attachments).filter
          fun a => a.email_id == e.id).length) :=
  claim4_attachments_count "out" "t" oneMailStore rfl (by decide) (by decide)

/-! ## Claim C9: attachment paths stay inside the owner directory -/

theorem resolvePath_owner (R id : String) (hR1 : R ≠ ".") (hR2 : R ≠ "..")
    (hid1 : id ≠ ".") (hid2 : id ≠ "..") :
    resolvePath [R, "attachments", id] = [R, "attachments", id] := by
  simp [resolvePath, resolveStep, hR1, hR2, hid1, hid2]

theorem resolvePath_target (R id safe : String) (hR1 : R ≠ ".")
    (hR2 : R ≠ "..") (hid1 : id ≠ ".") (hid2 : id ≠ "..")
    (hs1 : safe ≠ ".") (hs2 : safe ≠ "..") :
    resolvePath [R, "attachments", id, safe] = [R, "attachments", id, safe] := by
  simp [resolvePath, resolveStep, hR1, hR2, hid1, hid2, hs1, hs2]

theorem resolvePath_target_dot (R id : String) (hR1 : R ≠ ".") (hR2 : R ≠ "..")
    (hid1 : id ≠ ".") (hid2 : id ≠ "..") :
    resolvePath [R, "attachments", id, "."] = [R, "attachments", id] := by
  simp [resolvePath, resolveStep, hR1, hR2, hid1, hid2]

theorem resolvePath_target_dotdot (R id : String) (hR1 : R ≠ ".")
    (hR2 : R ≠ "..") (hid1 : id ≠ ".") (hid2 : id ≠ "..") :
    resolvePath [R, "attachments", id, ".."] = [R, "attachments"] := by
  simp [resolvePath, resolveStep, hR1, hR2, hid1, hid2, List.dropLast]

/-- C9: whenever `_save_attachment` reports a saved path, that path is
exactly `<output_root>/attachments/<owner_id>/<sanitized_name>`: its final
component is the sanitized declared name, and the path resolves to itself —
directly inside the owner directory. Moreover, for every declared filename
no write escapes the owner directory: sanitized names contain no path
separator, and the only traversal-capable names sanitization can produce,
`.` and `..`, resolve to existing directories on which the write itself
fails, so no path is returned for them (the owner id and output root are
plain path components, as the code always supplies: a hex digest or
timestamp id under a real output directory). -/
theorem claim9_attachment_containment (R id : String) (i : Nat)
    (a : RawAttachment) (p : List String)
    (hR1 : R ≠ ".") (hR2 : R ≠ "..") (hid1 : id ≠ ".") (hid2 : id ≠ "..")
    (hsave : saveAttachment R a id i = some p) :
    ∃ nm, getattrD a.name ("attachment_" ++ toString i) = .ok nm ∧
      p = [R, "attachments", id, safeFilename nm i] ∧
      safeFilename nm i ≠ "." ∧ safeFilename nm i ≠ ".." ∧
      resolvePath p = [R, "attachments", id, safeFilename nm i] := by
  cases hn : getattrD a.name ("attachment_" ++ toString i) with
  | error e =>
    rw [saveAttachment, hn] at hsave
    exact absurd hsave (by simp)
  | ok nm =>
    cases hd : a.data with
    | err =>
      simp only [saveAttachment, hn, hd] at hsave
      exact absurd hsave (by simp)
    | absent =>
      simp only [saveAttachment, hn, hd] at hsave
      exact absurd hsave (by simp)
    | val od =>
      cases od with
      | none =>
        simp only [saveAttachment, hn, hd] at hsave
        exact absurd hsave (by simp)
      | some d =>
        simp only [saveAttachment, hn, hd] at hsave
        by_cases hde : d.isEmpty
        · rw [if_pos hde] at hsave
          exact absurd hsave (by simp)
        rw [if_neg hde] at hsave
        have hs1 : safeFilename nm i ≠ "." := by
          intro hdot
          rw [hdot, resolvePath_target_dot R id hR1 hR2 hid1 hid2] at hsave
          rw [if_pos (by simp [isExistingDir])] at hsave
          exact absurd hsave (by simp)
        have hs2 : safeFilename nm i ≠ ".." := by
          intro hdot
          rw [hdot, resolvePath_target_dotdot R id hR1 hR2 hid1 hid2] at hsave
          rw [if_pos (by simp [isExistingDir])] at hsave
          exact absurd hsave (by simp)
        rw [resolvePath_target R id (safeFilename nm i)
          hR1 hR2 hid1 hid2 hs1 hs2] at hsave
        by_cases hex :
            isExistingDir R [R, "attachments", id, safeFilename nm i] = true
        · rw [if_pos hex] at hsave
          exact absurd hsave (by simp)
        · rw [if_neg hex] at hsave
          have hp : p = [R, "attachments", id, safeFilename nm i] :=
            (Option.some.injEq _ _ ▸ hsave).symm
          exact ⟨nm, rfl, hp, hs1, hs2,
            hp ▸ resolvePath_target R id (safeFilename nm i)
              hR1 hR2 hid1 hid2 hs1 hs2⟩

theorem claim9_witness :
    ∃ nm, getattrD sampleAtt.name ("attachment_" ++ toString 0) = .ok nm ∧
      ["out", "attachments", "e1", "abc.txt"] =
        ["out", "attachments", "e1", safeFilename nm 0] ∧
      safeFilename nm 0 ≠ "." ∧ safeFilename nm 0 ≠ ".." ∧
      resolvePath ["out", "attachments", "e1", "abc.txt"] =
        ["out", "attachments", "e1", safeFilename nm 0] :=
  claim9_attachment_containment "out" "e1" 0 sampleAtt
    ["out", "attachments", "e1", "abc.txt"]
    (by decide) (by decide) (by decide) (by decide) (by decide)

end PST
